import Mathlib

/-!
Verification of the iouring ring library (ring.go and its constants file)
against its natural-language specification.

The Go source is shallowly embedded: machine integers become `Nat` with
explicit reduction modulo `2^32` / `2^64` where the Go code can overflow;
syscall results (munmap errno, close(2), io_uring_enter) are supplied as
oracle values; side effects are recorded as explicit event traces so that
ordering claims ("unmaps the submission region first", "applies the
barrier, then enters the kernel") become statements about lists.
-/

namespace IOUring

/-! ### Constants (from the build-tagged constants file, `uapi/linux/io_uring.h` mirror) -/

/-- Modulus of Go `uint32` arithmetic (`atomic.AddUint32` wraps here). -/
def U32 : Nat := 2 ^ 32

/-- Modulus of Go `uint64` arithmetic (`atomic.AddUint64` wraps here). -/
def U64 : Nat := 2 ^ 64

/-- FeatSingleMmap = (1 << 0): single-mmap feature flag. -/
def FeatSingleMmap : Nat := 1 <<< 0

/-- SqRingOffset: mmap offset of the submission queue region. -/
def SqRingOffset : Nat := 0

/-- CqRingOffset: mmap offset of the completion queue region. -/
def CqRingOffset : Nat := 0x8000000

/-- SqeSOffset: mmap offset of the submission-entries backing array. -/
def SqeSOffset : Nat := 0x10000000

/-- RegisterBuffers opcode of io_uring_register(2). -/
def RegisterBuffers : Nat := 0

/-- UnregisterBuffers opcode of io_uring_register(2). -/
def UnregisterBuffers : Nat := 1

/-- RegisterFiles opcode of io_uring_register(2). -/
def RegisterFiles : Nat := 2

/-- UnregisterFiles opcode of io_uring_register(2). -/
def UnregisterFiles : Nat := 3

/-- RegisterEventfd opcode of io_uring_register(2). -/
def RegisterEventfd : Nat := 4

/-- UnregisteREventfd opcode of io_uring_register(2) (name as in the source). -/
def UnregisteREventfd : Nat := 5

/-! ### The slot allocator `Sqe`

The Go source:

```
func (r *Ring) Sqe() int {
getIdx:
    v := atomic.AddUint32(r.sq.Head, 1)
    if v == r.sq.Size {
        if !atomic.CompareAndSwapUint32(r.sq.Head, v, 0) {
            runtime.Gosched()
            goto getIdx
        }
    }
    tail := atomic.LoadUint32(r.sq.Tail)
    if tail != v {
        return int(v)
    }
    runtime.Gosched()
    goto getIdx
}
```

Two embeddings are used.  `sqeAttempt` is one pass through the loop body
with the concurrency oracles explicit (whether the CAS succeeded, which
tail value the load observed); it is the object of the step-by-step
algorithm claim.  `sqeRun` is the single-threaded execution (the CAS
always succeeds because no other thread touches `head`; the tail is a
fixed observed value), with fuel bounding the number of loop iterations.
-/

/-- Outcome of one pass through the body of the `Sqe` loop. -/
inductive SqeStep where
  /-- the pass returned slot index `v` -/
  | ret (v : Nat)
  /-- the wraparound CAS failed: yield and restart from the increment -/
  | retryCas
  /-- the observed tail equalled `v` (ring saturated): yield and restart -/
  | retryFull
deriving DecidableEq, Repr

/-- One pass of the `Sqe` loop body, translated from the Go source.
`head` is the value of `*r.sq.Head` before the pass, `casOk` tells whether
the `CompareAndSwapUint32` (consulted only at the wraparound boundary)
succeeds, `tail` is the value the atomic load of `*r.sq.Tail` observes. -/
def sqeAttempt (size head : Nat) (casOk : Bool) (tail : Nat) : SqeStep :=
  let v := (head + 1) % U32
  if v = size then
    if casOk then
      if tail ≠ v then .ret v else .retryFull
    else .retryCas
  else
    if tail ≠ v then .ret v else .retryFull

/-- One pass of the slot-allocation loop as the SPEC words it (§4.3 steps
1–4): increment head obtaining candidate `v`; if `v` equals the ring size
attempt the CAS of head from `v` to 0 and on failure yield and restart;
read the tail; if `tail ≠ v` return `v`; if `tail = v` yield and restart.
Written from the spec's sentences, for comparison with `sqeAttempt`. -/
def sqeAttemptSpec (size head : Nat) (casOk : Bool) (tail : Nat) : SqeStep :=
  let v := (head + 1) % U32
  if v = size ∧ casOk = false then
    .retryCas
  else if tail ≠ v then
    .ret v
  else
    .retryFull

/-- Single-threaded execution of `Sqe` from head value `head` with the
kernel-maintained tail frozen at `tail`: the CAS always succeeds (no other
thread mutates head), so the only retries are the `tail = v` ones.  Fuel
bounds the loop; `none` means the fuel ran out.  Returns the slot index
and the head value after the call. -/
def sqeRun (size : Nat) : Nat → Nat → Nat → Option (Nat × Nat)
  | 0, _, _ => none
  | fuel + 1, head, tail =>
    let v := (head + 1) % U32
    let head1 := if v = size then 0 else v
    if tail ≠ v then some (v, head1) else sqeRun size fuel head1 tail

/-- Sequence of `n` single-threaded `Sqe` calls (tail frozen at `tail`),
each given fuel `size + 2`: the list of returned slot indices and the
final head value.  Truncates if some call exhausts its fuel. -/
def sqeSeq (size : Nat) : Nat → Nat → Nat → List Nat × Nat
  | 0, head, _ => ([], head)
  | n + 1, head, tail =>
    match sqeRun size (size + 2) head tail with
    | none => ([], head)
    | some (v, head1) =>
      let r := sqeSeq size n head1 tail
      (v :: r.1, r.2)

/-! ### Teardown (`Close`, `closeSq`, `closeCq`) and `Enter`

State relevant to teardown: whether `r.sq` / `r.cq` are still non-nil,
whether the kernel ring fd is still open, and `r.p.Flags` (the word
`Close` tests against `FeatSingleMmap`).  The munmap / close(2) syscalls
are oracles; every syscall issued is recorded in an event trace.
-/

/-- Observable side effects of teardown and enter. -/
inductive Ev where
  /-- munmap of the submission region -/
  | munmapSq
  /-- munmap of the completion region -/
  | munmapCq
  /-- close(2) of the kernel ring file descriptor -/
  | closeFd
  /-- the submit memory barrier -/
  | submitBarrier
  /-- the io_uring_enter boundary syscall -/
  | kernelEnter
deriving DecidableEq, Repr

/-- Errors surfaced by the embedded operations. -/
inductive Err where
  /-- munmap of the submission region failed (wrapped errno) -/
  | munmapSqFailed
  /-- munmap of the completion region failed (wrapped errno) -/
  | munmapCqFailed
  /-- close(2) on an already-closed descriptor (EBADF) -/
  | badFd
  /-- io_uring_enter failed with some errno -/
  | enterFailed (code : Nat)
deriving DecidableEq, Repr

/-- The mutable ring-controller state teardown touches. -/
structure RingSt where
  /-- `r.sq ≠ nil` -/
  sqMapped : Bool
  /-- `r.cq ≠ nil` -/
  cqMapped : Bool
  /-- the kernel ring file descriptor is still open -/
  fdOpen : Bool
  /-- `r.p.Flags`, the word `Close` masks with `FeatSingleMmap` -/
  flags : Nat
deriving DecidableEq, Repr

/-- Oracle outcomes for the teardown syscalls: the errno (as an `Err`)
of the two munmap calls and of close(2) on an open descriptor; `none`
means success. -/
structure TeardownEnv where
  /-- result of munmap on the submission region -/
  munmapSqErr : Option Err
  /-- result of munmap on the completion region -/
  munmapCqErr : Option Err
  /-- result of close(2) while the descriptor is open -/
  closeFdErr : Option Err

/-- `closeSq`, translated from the Go source: under the sq lock, if
`r.sq == nil` return nil at once (no syscall); otherwise issue the munmap
and, if its errno is nonzero, return the wrapped error WITHOUT clearing
`r.sq`; on success set `r.sq = nil`.  Returns (error, new state, trace). -/
def closeSq (st : RingSt) (munmapRes : Option Err) : Option Err × RingSt × List Ev :=
  if st.sqMapped = false then
    (none, st, [])
  else
    match munmapRes with
    | some e => (some e, st, [.munmapSq])
    | none => (none, { st with sqMapped := false }, [.munmapSq])

/-- `closeCq`, translated from the Go source: same shape as `closeSq` for
the completion region. -/
def closeCq (st : RingSt) (munmapRes : Option Err) : Option Err × RingSt × List Ev :=
  if st.cqMapped = false then
    (none, st, [])
  else
    match munmapRes with
    | some e => (some e, st, [.munmapCq])
    | none => (none, { st with cqMapped := false }, [.munmapCq])

/-- close(2) on the ring fd: succeeds (or fails per the oracle) while the
descriptor is open; on an already-closed descriptor it returns EBADF.
Either way the descriptor is closed afterwards. -/
def closeRingFd (st : RingSt) (env : TeardownEnv) : Option Err × RingSt :=
  if st.fdOpen then (env.closeFdErr, { st with fdOpen := false })
  else (some .badFd, st)

/-- `Close`, translated from the Go source:

```
func (r *Ring) Close() error {
    if err := r.closeSq(); err != nil {
        return err
    }
    if r.p.Flags&FeatSingleMmap == 0 {
        if err := r.closeCq(); err != nil {
            return err
        }
    }
    return syscall.Close(r.fd)
}
```
-/
def ringClose (st : RingSt) (env : TeardownEnv) : Option Err × RingSt × List Ev :=
  match closeSq st env.munmapSqErr with
  | (some e, st1, tr1) => (some e, st1, tr1)
  | (none, st1, tr1) =>
    if st1.flags &&& FeatSingleMmap = 0 then
      match closeCq st1 env.munmapCqErr with
      | (some e, st2, tr2) => (some e, st2, tr1 ++ tr2)
      | (none, st2, tr2) =>
        let r := closeRingFd st2 env
        (r.1, r.2, tr1 ++ tr2 ++ [.closeFd])
    else
      let r := closeRingFd st1 env
      (r.1, r.2, tr1 ++ [.closeFd])

/-! ### `Enter` and the submission ring state -/

/-- Tri-state submission ring flag (`RingStateEmpty` appears in `New`). -/
inductive RingState where
  /-- no unflushed entries since the last kernel entry -/
  | Empty
  /-- entries allocated/written since the last flush -/
  | Filling
  /-- saturation signaling -/
  | Full
deriving DecidableEq, Repr

/-- `Enter`, translated from the Go source; `r.sq.submitBarrier()` and
`r.sq.empty()` are methods whose bodies are not in the sources at hand.
Modelled from the spec: the submit barrier is a memory fence with no
observable state change beyond ordering (recorded as a trace event), and
`empty()` transitions the submission ring state to Empty.

```
func (r *Ring) Enter(...) error {
    r.sq.submitBarrier()
    if err := Enter(fd, toSubmit, minComplete, flags, sigset); err != nil {
        return err
    }
    r.sq.empty()
    return nil
}
```

`kres` is the oracle outcome of the kernel boundary call (`none` =
success).  Returns (error, ring state after, trace). -/
def ringEnter (st : RingState) (kres : Option Err) : Option Err × RingState × List Ev :=
  match kres with
  | some e => (some e, st, [.submitBarrier, .kernelEnter])
  | none => (none, .Empty, [.submitBarrier, .kernelEnter])

/-! ### The identifier counter `Idx` -/

/-- The identifier counter value set by `New` (`idx := uint64(0)`). -/
def idxInit : Nat := 0

/-- `Idx`, translated from the Go source: `atomic.AddUint64(r.idx, 1)`
increments the 64-bit counter (wrapping) and returns the new value.
Returns (returned identifier, new counter value). -/
def Idx (c : Nat) : Nat × Nat :=
  let c1 := (c + 1) % U64
  (c1, c1)

/-- Counter value after `n` calls to `Idx` starting from `idxInit`; since
`Idx` returns the post-increment value, this is also the value the `n`-th
call returns (for `n ≥ 1`). -/
def idxAfter : Nat → Nat
  | 0 => idxInit
  | n + 1 => (Idx (idxAfter n)).1

/-! ### Helper lemmas -/

/-- The counter after `n` calls to `Idx` is `n` reduced modulo `2^64`. -/
theorem idxAfter_eq (n : Nat) : idxAfter n = n % U64 := by
  induction n with
  | zero => simp [idxAfter, idxInit]
  | succ k ih => simp [idxAfter, Idx, ih, Nat.mod_add_mod]

/-- Unfolding equation for one fueled iteration of `sqeRun`. -/
theorem sqeRun_succ (size fuel head tail : Nat) :
    sqeRun size (fuel + 1) head tail =
      if tail ≠ (head + 1) % U32 then
        some ((head + 1) % U32,
          if (head + 1) % U32 = size then 0 else (head + 1) % U32)
      else
        sqeRun size fuel
          (if (head + 1) % U32 = size then 0 else (head + 1) % U32) tail :=
  rfl

/-- The result of `closeSq` when the queue is mapped and the munmap fails:
the error is returned, the state (in particular the `sq` reference) is
unchanged, and exactly one munmap was issued. -/
theorem closeSq_fail (st : RingSt) (e : Err) (hsq : st.sqMapped = true) :
    closeSq st (some e) = (some e, st, [Ev.munmapSq]) := by
  simp [closeSq, hsq]

/-! ### Claims -/

/-- Claim C9: the memory-layout constants match the kernel ABI values the
spec documents: the completion ring's mmap offset equals `0x8000000`, the
submission-entries array's mmap offset equals `0x10000000` (submission
ring at offset 0), and the six register opcodes are the consecutive
values 0 through 5. -/
theorem c9_layout_constants :
    CqRingOffset = 0x8000000 ∧ SqeSOffset = 0x10000000 ∧ SqRingOffset = 0 ∧
    RegisterBuffers = 0 ∧ UnregisterBuffers = 1 ∧ RegisterFiles = 2 ∧
    UnregisterFiles = 3 ∧ RegisterEventfd = 4 ∧ UnregisteREventfd = 5 :=
  ⟨rfl, rfl, rfl, rfl, rfl, rfl, rfl, rfl, rfl⟩

/-- Claim C2: one pass of the `Sqe` loop body, as translated from the
source (`sqeAttempt`), coincides with the spec's four-step description
(`sqeAttemptSpec`) on every head value, CAS outcome and observed tail:
increment head obtaining `v`; at `v = size` attempt the CAS to 0,
restarting on failure; return `v` whenever the observed tail differs from
`v`; restart when `tail = v`. -/
theorem c2_sqe_algorithm (size head : Nat) (casOk : Bool) (tail : Nat) :
    sqeAttempt size head casOk tail = sqeAttemptSpec size head casOk tail := by
  unfold sqeAttempt sqeAttemptSpec
  by_cases h1 : (head + 1) % U32 = size <;> cases casOk <;> simp [h1]

/-- Claim C1 counterexample: on a ring of size 8 with head and tail
starting at 0, the eight sequential allocations return the indices
1,2,...,8 — not 0..7 as the claim states (the first call already returns
1, and index 0 is never produced). -/
theorem c1_counterexample :
    (sqeSeq 8 8 0 0).1 ≠ [0, 1, 2, 3, 4, 5, 6, 7] ∧
    (sqeSeq 8 8 0 0).1 = [1, 2, 3, 4, 5, 6, 7, 8] := by
  decide

/-- Claim C1 (amended): for a ring of size 8 (head and tail 0), allocating
8 slots sequentially via `Sqe` returns the indices 1..8 in order, each
distinct, with the 8th call wrapping the head cursor to 0; the 9th
allocation then succeeds immediately (the frozen tail 0 never equals the
candidate) with index 1. -/
theorem c1_amended :
    sqeSeq 8 9 0 0 = ([1, 2, 3, 4, 5, 6, 7, 8, 1], 1) ∧
    (sqeSeq 8 8 0 0).1.Nodup ∧ (sqeSeq 8 8 0 0).2 = 0 := by
  decide

/-- Claim C10: in single-threaded execution on a ring of size `N`
(`0 < N < 2^32`) from any head below `N` — the invariant established by
the initial head 0 and preserved by every call — a returning `Sqe`
yields an index in `1..N` inclusive (in particular never 0) and leaves
the head again below `N`; and at the wraparound boundary (head `N - 1`)
it returns the value `N` itself, resetting the head to 0. -/
theorem c10_sqe_range :
    (∀ size fuel head tail v h1, 0 < size → size < U32 → head < size →
        sqeRun size fuel head tail = some (v, h1) →
        1 ≤ v ∧ v ≤ size ∧ h1 < size) ∧
    (∀ size tail, 0 < size → size < U32 → tail ≠ size →
        sqeRun size 1 (size - 1) tail = some (size, 0)) := by
  constructor
  · intro size fuel
    induction fuel with
    | zero => intro head tail v h1 _ _ _ h; simp [sqeRun] at h
    | succ k ih =>
      intro head tail v h1 hpos hlt hh h
      have hv : (head + 1) % U32 = head + 1 :=
        Nat.mod_eq_of_lt (lt_of_le_of_lt (Nat.succ_le_of_lt hh) hlt)
      rw [sqeRun_succ, hv] at h
      by_cases ht : tail = head + 1
      · rw [if_neg (not_not_intro ht)] at h
        by_cases he : head + 1 = size
        · rw [if_pos he] at h
          exact ih 0 tail v h1 hpos hlt hpos h
        · have hlt1 : head + 1 < size :=
            Nat.lt_of_le_of_ne (Nat.succ_le_of_lt hh) he
          rw [if_neg he] at h
          exact ih (head + 1) tail v h1 hpos hlt hlt1 h
      · rw [if_pos ht] at h
        have h3 := Option.some.inj h
        have hv1 : v = head + 1 := (congrArg Prod.fst h3).symm
        have hh1 : h1 = if head + 1 = size then 0 else head + 1 :=
          (congrArg Prod.snd h3).symm
        subst hv1
        refine ⟨Nat.succ_le_succ (Nat.zero_le head), Nat.succ_le_of_lt hh, ?_⟩
        rw [hh1]
        by_cases he : head + 1 = size
        · simpa [he] using hpos
        · simpa [he] using Nat.lt_of_le_of_ne (Nat.succ_le_of_lt hh) he
  · intro size tail hpos hlt ht
    have hs : size - 1 + 1 = size := Nat.succ_pred_eq_of_pos hpos
    rw [sqeRun]
    simp [hs, Nat.mod_eq_of_lt hlt, ht]

/-- Claim C10 witness: on a ring of size 8 the first allocation returns
index 1 (within 1..8, head stays below 8), and from head 7 (the
wraparound boundary) the allocator returns the ring size 8 itself,
resetting the head to 0. -/
theorem c10_witness :
    (1 ≤ 1 ∧ 1 ≤ 8 ∧ 1 < 8) ∧ sqeRun 8 1 7 0 = some (8, 0) :=
  ⟨c10_sqe_range.1 8 1 0 0 1 1 (by decide) (by decide) (by decide) (by decide),
   c10_sqe_range.2 8 0 (by decide) (by decide) (by decide)⟩

/-- Claim C3: `Enter` applies the submit barrier and then the kernel
enter boundary call (the trace is always barrier-then-enter, in that
order); on success the submission ring state becomes Empty; on failure
the error is returned unchanged and the ring state is exactly as it
was. -/
theorem c3_enter :
    (∀ st : RingState,
        ringEnter st none = (none, .Empty, [.submitBarrier, .kernelEnter])) ∧
    (∀ (st : RingState) (e : Err),
        ringEnter st (some e) = (some e, st, [.submitBarrier, .kernelEnter])) :=
  ⟨fun _ => rfl, fun _ _ => rfl⟩

/-- Claim C4: on a fully mapped ring with all teardown syscalls
succeeding, `Close` unmaps the submission region first, unmaps the
completion region if and only if bit 0 of the word tested against
`FeatSingleMmap` is unset, and finally closes the ring file
descriptor. -/
theorem c4_close_order (st : RingSt) (env : TeardownEnv)
    (hsq : st.sqMapped = true) (hcq : st.cqMapped = true) (hfd : st.fdOpen = true)
    (h1 : env.munmapSqErr = none) (h2 : env.munmapCqErr = none)
    (h3 : env.closeFdErr = none) :
    (ringClose st env).1 = none ∧
    (ringClose st env).2.2 =
      if st.flags &&& FeatSingleMmap = 0 then [Ev.munmapSq, .munmapCq, .closeFd]
      else [Ev.munmapSq, .closeFd] := by
  by_cases hf : st.flags &&& FeatSingleMmap = 0 <;>
    simp [ringClose, closeSq, closeCq, closeRingFd, hsq, hcq, hfd, h1, h2, h3, hf]

/-- Claim C4 witness: with the single-mmap bit unset (flags 0) the trace
is sq-unmap, cq-unmap, fd-close. -/
theorem c4_witness :
    (ringClose ⟨true, true, true, 0⟩ ⟨none, none, none⟩).1 = none ∧
    (ringClose ⟨true, true, true, 0⟩ ⟨none, none, none⟩).2.2 =
      if (RingSt.mk true true true 0).flags &&& FeatSingleMmap = 0 then
        [Ev.munmapSq, .munmapCq, .closeFd]
      else [Ev.munmapSq, .closeFd] :=
  c4_close_order ⟨true, true, true, 0⟩ ⟨none, none, none⟩ rfl rfl rfl rfl rfl rfl

/-- Claim C5: after a first successful `Close` of a fully mapped ring, a
second `Close` issues no munmap at all (its trace is just the fd-close
syscall) and returns the benign already-closed outcome EBADF from
close(2) on the now-closed descriptor. -/
theorem c5_double_close (st : RingSt) (env env2 : TeardownEnv)
    (hsq : st.sqMapped = true) (hcq : st.cqMapped = true) (hfd : st.fdOpen = true)
    (h1 : env.munmapSqErr = none) (h2 : env.munmapCqErr = none)
    (h3 : env.closeFdErr = none) :
    (ringClose (ringClose st env).2.1 env2).2.2 = [Ev.closeFd] ∧
    (ringClose (ringClose st env).2.1 env2).1 = some .badFd := by
  by_cases hf : st.flags &&& FeatSingleMmap = 0 <;>
    simp [ringClose, closeSq, closeCq, closeRingFd, hsq, hcq, hfd, h1, h2, h3, hf]

/-- Claim C5 witness: concrete double close with flags 0 — the second
call performs no unmap and returns the already-closed outcome. -/
theorem c5_witness :
    (ringClose (ringClose ⟨true, true, true, 0⟩ ⟨none, none, none⟩).2.1
        ⟨none, none, none⟩).2.2 = [Ev.closeFd] ∧
    (ringClose (ringClose ⟨true, true, true, 0⟩ ⟨none, none, none⟩).2.1
        ⟨none, none, none⟩).1 = some .badFd :=
  c5_double_close ⟨true, true, true, 0⟩ ⟨none, none, none⟩ ⟨none, none, none⟩
    rfl rfl rfl rfl rfl rfl

/-- Claim C6 counterexample: on a fully mapped ring owing a separate cq
unmap (flags 0), when the submission-region unmap fails `Close` returns
at once: its trace is only the failed sq munmap, and the completion
region unmap is NOT attempted — contradicting the claim that the later
unmap is still attempted. -/
theorem c6_counterexample :
    (ringClose ⟨true, true, true, 0⟩
        ⟨some .munmapSqFailed, none, none⟩).2.2 = [Ev.munmapSq] ∧
    Ev.munmapCq ∉
      (ringClose ⟨true, true, true, 0⟩
        ⟨some .munmapSqFailed, none, none⟩).2.2 := by
  decide

/-- Claim C6 (amended): when the first unmap (submission region) fails
during `Close`, that error is reported to the caller and `Close` returns
immediately: neither the completion-region unmap nor the fd close is
attempted, and the ring state is unchanged. -/
theorem c6_amended (st : RingSt) (env : TeardownEnv) (e : Err)
    (hsq : st.sqMapped = true) (h1 : env.munmapSqErr = some e) :
    ringClose st env = (some e, st, [Ev.munmapSq]) := by
  simp [ringClose, closeSq, hsq, h1]

/-- Claim C6 amended witness: concrete failing sq munmap. -/
theorem c6_witness :
    ringClose ⟨true, true, true, 0⟩ ⟨some .munmapSqFailed, none, none⟩ =
      (some .munmapSqFailed, ⟨true, true, true, 0⟩, [Ev.munmapSq]) :=
  c6_amended ⟨true, true, true, 0⟩ ⟨some .munmapSqFailed, none, none⟩
    .munmapSqFailed rfl rfl

/-- Claim C7 counterexample: when the sq munmap fails, `closeSq` leaves
the sq reference set (NOT marked released), and a retried `Close`
attempts the munmap of the same region again — contradicting the claim
that the reference is released to avoid a double unmap on retry. -/
theorem c7_counterexample :
    (closeSq ⟨true, true, true, 0⟩ (some .munmapSqFailed)).2.1.sqMapped = true ∧
    Ev.munmapSq ∈
      (ringClose
        (ringClose ⟨true, true, true, 0⟩
          ⟨some .munmapSqFailed, none, none⟩).2.1
        ⟨some .munmapSqFailed, none, none⟩).2.2 := by
  decide

/-- Claim C7 (amended): when an unmap fails during teardown the error is
reported to the caller, but the internal descriptor reference (sq or cq
pointer) is NOT cleared: the state is returned unchanged, so a retry of
`Close` attempts the unmap of the same region again (a further `closeSq`
issues the munmap once more, whatever its outcome `r2`). -/
theorem c7_amended (st : RingSt) (e : Err) (r2 : Option Err) :
    (st.sqMapped = true →
      closeSq st (some e) = (some e, st, [Ev.munmapSq]) ∧
      (closeSq (closeSq st (some e)).2.1 r2).2.2 = [Ev.munmapSq]) ∧
    (st.cqMapped = true →
      closeCq st (some e) = (some e, st, [Ev.munmapCq])) := by
  constructor
  · intro hsq
    refine ⟨closeSq_fail st e hsq, ?_⟩
    rw [closeSq_fail st e hsq]
    cases r2 <;> simp [closeSq, hsq]
  · intro hcq
    simp [closeCq, hcq]

/-- Claim C7 amended witness: concrete failing unmaps on a fully mapped
ring. -/
theorem c7_witness :
    (closeSq ⟨true, true, true, 0⟩ (some .munmapSqFailed) =
        (some .munmapSqFailed, ⟨true, true, true, 0⟩, [Ev.munmapSq]) ∧
      (closeSq (closeSq ⟨true, true, true, 0⟩
          (some .munmapSqFailed)).2.1 none).2.2 = [Ev.munmapSq]) ∧
    closeCq ⟨true, true, true, 0⟩ (some .munmapCqFailed) =
      (some .munmapCqFailed, ⟨true, true, true, 0⟩, [Ev.munmapCq]) :=
  ⟨(c7_amended ⟨true, true, true, 0⟩ .munmapSqFailed none).1 rfl,
   (c7_amended ⟨true, true, true, 0⟩ .munmapCqFailed none).2 rfl⟩

/-- Claim C8: the identifier counter starts at 0 (`New` zeroes it), every
`Idx` call increments the 64-bit counter modulo `2^64` and returns the
new value, and the returned sequence is strictly increasing (hence
repeat-free) until 64-bit wraparound: the `i`-th and `j`-th returns
satisfy `idxAfter i < idxAfter j` whenever `i < j < 2^64`. -/
theorem c8_idx_monotone :
    idxInit = 0 ∧
    (∀ c : Nat, Idx c = ((c + 1) % U64, (c + 1) % U64)) ∧
    (∀ i j : Nat, i < j → j < U64 → idxAfter i < idxAfter j) := by
  refine ⟨rfl, fun c => rfl, fun i j hij hj => ?_⟩
  rw [idxAfter_eq, idxAfter_eq, Nat.mod_eq_of_lt (lt_trans hij hj),
    Nat.mod_eq_of_lt hj]
  exact hij

/-- Claim C8 witness: the first two identifier returns are strictly
ordered. -/
theorem c8_witness : idxAfter 1 < idxAfter 2 :=
  c8_idx_monotone.2.2 1 2 (by decide) (by decide)

end IOUring
